import Mathlib

/-!
Verification development for the dividend-fetch service
(Express + Puppeteer variant, the file with `BrowserPool`).

The pool, the retry loop, the scraper orchestration, the TTL cache and
the two HTTP handlers are shallowly embedded as pure Lean functions; the
concurrent pool is embedded as a state machine whose events are the
atomic (no-await-in-between) segments of `getBrowser`, `releaseBrowser`
and `cleanup`.  Browsers and callers are identified by natural numbers;
`loans`, `settled` and `closed` are bookkeeping for which caller holds
which instance, which `getBrowser` promises have been resolved or
rejected, and which instances have been closed.
-/

/-- Outcome delivered to one `getBrowser` caller: its promise resolved
with an instance, or rejected (browser launch failure). -/
inductive Outcome where
  | gotBrowser (b : Nat)
  | gotError
deriving Repr, DecidableEq

/-- State of `BrowserPool`: `browsers` is the idle array (JS `push`
appends at the end, `pop` removes from the end), `queue` the FIFO waiter
array (`push` appends, `shift` removes the head), `activeBrowsers` the
launch-accounting counter, `maxSize` the bound.  `loans`, `launching`,
`nextBrowser`, `closed` and `settled` are bookkeeping of the hand-outs
implied by `resolve`/`reject` calls and of instance lifecycle. -/
structure PoolState where
  maxSize : Nat
  browsers : List Nat
  queue : List Nat
  activeBrowsers : Int
  loans : List (Nat × Nat)
  launching : List Nat
  nextBrowser : Nat
  closed : List Nat
  settled : List (Nat × Outcome)
deriving Repr, DecidableEq

/-- The atomic segments of the pool methods.  `acquire c` is the
synchronous body of `getBrowser` for caller `c` up to a suspension;
`launchOk`/`launchFail` is the completion of the `puppeteer.launch`
await; `release c` is `releaseBrowser` for the instance caller `c`
holds, with the page-cleanup step succeeding; `releaseFail c` is the
same call with the cleanup step throwing (the `catch` branch);
`cleanup` is `BrowserPool.cleanup`. -/
inductive PoolEvent where
  | acquire (c : Nat)
  | launchOk (c : Nat)
  | launchFail (c : Nat)
  | release (c : Nat)
  | releaseFail (c : Nat)
  | cleanup
deriving Repr, DecidableEq

/-- JS `array.pop()`: the last element and the remaining prefix. -/
def popLast? : List Nat → Option (List Nat × Nat)
  | [] => none
  | [x] => some ([], x)
  | x :: y :: t =>
    match popLast? (y :: t) with
    | some (l, b) => some (x :: l, b)
    | none => none

/-- A caller id already used by some pending or finished `getBrowser`
call; `acquire` requires a fresh id so that one event names one call. -/
def callerKnown (s : PoolState) (c : Nat) : Bool :=
  s.launching.contains c || s.queue.contains c || (s.settled.map Prod.fst).contains c

/-- One event of the pool state machine, translated branch by branch
from `getBrowser` / `releaseBrowser` / `cleanup`.  `none` marks an
ill-formed event (releasing an instance the caller does not hold,
completing a launch that is not in flight, reusing a caller id). -/
def applyEvent (s : PoolState) (e : PoolEvent) : Option PoolState :=
  match e with
  | .acquire c =>
    if callerKnown s c then none
    else
      match popLast? s.browsers with
      | some (l, b) =>
        -- `if (this.browsers.length > 0) { resolve(this.browsers.pop()) }`
        some { s with browsers := l, loans := (c, b) :: s.loans,
                      settled := (c, .gotBrowser b) :: s.settled }
      | none =>
        if s.activeBrowsers < (s.maxSize : Int) then
          -- `this.activeBrowsers++` and the launch await begins
          some { s with activeBrowsers := s.activeBrowsers + 1,
                        launching := c :: s.launching }
        else
          -- `this.queue.push({ resolve, reject })`
          some { s with queue := s.queue ++ [c] }
  | .launchOk c =>
    if s.launching.contains c then
      -- the launch await returns a fresh instance; `resolve(browser)`
      some { s with launching := s.launching.erase c,
                    loans := (c, s.nextBrowser) :: s.loans,
                    nextBrowser := s.nextBrowser + 1,
                    settled := (c, .gotBrowser s.nextBrowser) :: s.settled }
    else none
  | .launchFail c =>
    if s.launching.contains c then
      -- `catch: this.activeBrowsers--; reject(error)`
      some { s with launching := s.launching.erase c,
                    activeBrowsers := s.activeBrowsers - 1,
                    settled := (c, .gotError) :: s.settled }
    else none
  | .release c =>
    match s.loans.lookup c with
    | some b =>
      match s.queue with
      | w :: ws =>
        -- `const { resolve } = this.queue.shift(); resolve(browser)`
        some { s with loans := (w, b) :: s.loans.filter (fun p => p.1 != c),
                      queue := ws,
                      settled := (w, .gotBrowser b) :: s.settled }
      | [] =>
        if s.browsers.length < s.maxSize then
          -- `this.browsers.push(browser)`
          some { s with loans := s.loans.filter (fun p => p.1 != c),
                        browsers := s.browsers ++ [b] }
        else
          -- `await browser.close(); this.activeBrowsers--`
          some { s with loans := s.loans.filter (fun p => p.1 != c),
                        closed := b :: s.closed,
                        activeBrowsers := s.activeBrowsers - 1 }
    | none => none
  | .releaseFail c =>
    match s.loans.lookup c with
    | some b =>
      -- `catch: await browser.close(); this.activeBrowsers--; console.error(...)`
      some { s with loans := s.loans.filter (fun p => p.1 != c),
                    closed := b :: s.closed,
                    activeBrowsers := s.activeBrowsers - 1 }
    | none => none
  | .cleanup =>
    -- close every idle browser, `this.browsers = []`, `this.activeBrowsers = 0`
    some { s with closed := s.browsers ++ s.closed, browsers := [],
                  activeBrowsers := 0 }

/-- The state built by `new BrowserPool(maxSize)`. -/
def initPool (maxSize : Nat) : PoolState :=
  { maxSize := maxSize, browsers := [], queue := [], activeBrowsers := 0,
    loans := [], launching := [], nextBrowser := 0, closed := [], settled := [] }

/-- Run a finite interleaving of pool events from the initial state. -/
def runPool (maxSize : Nat) (events : List PoolEvent) : Option PoolState :=
  events.foldl (fun os e => os.bind (fun s => applyEvent s e)) (some (initPool maxSize))

/-- The instances currently alive inside the pool: the idle list plus
the instances on loan. -/
def liveBrowsers (s : PoolState) : List Nat :=
  s.browsers ++ s.loans.map Prod.snd

/-- The callers with a pending or in-flight `getBrowser` interaction:
awaiting a launch, queued, or holding a loan. -/
def pendingCallers (s : PoolState) : List Nat :=
  s.launching ++ s.queue ++ s.loans.map Prod.fst

/-- Inductive well-formedness of a pool state: the accounting bound,
exclusivity of ownership (no instance listed twice among idle plus
loans), freshness of instance ids, uniqueness of caller roles, and
every borrower having been settled. -/
structure PoolWF (s : PoolState) : Prop where
  active_le : s.activeBrowsers ≤ (s.maxSize : Int)
  live_nodup : (liveBrowsers s).Nodup
  live_lt : ∀ b ∈ liveBrowsers s, b < s.nextBrowser
  callers_nodup : (pendingCallers s).Nodup
  loans_settled : ∀ c ∈ s.loans.map Prod.fst, c ∈ s.settled.map Prod.fst

/-- The SIGINT/SIGTERM handlers: `await browserPool.cleanup()` and then
the process exits, so no further pool event follows. -/
def handleTerminationSignal (s : PoolState) : Option PoolState :=
  applyEvent s .cleanup

/-- The page-cleanup step at the top of `releaseBrowser`: the `for`
loop closes `pages[i]` for every `i` from `1` to `pages.length - 1`. -/
def pagesClosedOnRelease (pages : List Nat) : List Nat :=
  pages.drop 1

/-- The pages of the instance that survive the cleanup step. -/
def pagesKeptOnRelease (pages : List Nat) : List Nat :=
  pages.take 1

/-!  ## Navigation retry loop of `scrapeDividendData`  -/

/-- Result of the `while (retryCount < maxRetries)` navigation loop:
either some attempt succeeded (`break`), or the final attempt failed
and its error was re-thrown, or the loop condition became false with no
attempt succeeding (unreachable when `maxRetries = 3`).  In each case
the number of `page.goto` attempts made and the list of backoff delays
(milliseconds) awaited between attempts are recorded. -/
inductive NavOutcome where
  | success (attempts : Nat) (delays : List Nat)
  | failure (attempts : Nat) (delays : List Nat) (err : String)
  | fellThrough (attempts : Nat) (delays : List Nat)
deriving Repr, DecidableEq

/-- Number of navigation attempts recorded in a `NavOutcome`. -/
def NavOutcome.attempts : NavOutcome → Nat
  | .success n _ => n
  | .failure n _ _ => n
  | .fellThrough n _ => n

/-- The loop body, fuel-indexed by `maxRetries - retryCount`:
`go k` is the result of the `page.goto` call on the attempt made with
`retryCount = k`.  On failure the code does `retryCount++`, re-throws
when `retryCount === maxRetries`, and otherwise awaits
`setTimeout(..., 1000 * retryCount)` before the next iteration. -/
def navLoop (go : Nat → Except String Unit) (maxRetries : Nat) :
    Nat → Nat → List Nat → NavOutcome
  | 0, retryCount, delays => .fellThrough retryCount delays
  | fuel + 1, retryCount, delays =>
    match go retryCount with
    | .ok _ => .success (retryCount + 1) delays
    | .error e =>
      if retryCount + 1 = maxRetries then .failure (retryCount + 1) delays e
      else navLoop go maxRetries fuel (retryCount + 1)
        (delays ++ [1000 * (retryCount + 1)])

/-- The navigation retry loop as written in `scrapeDividendData`:
`retryCount = 0`, `maxRetries = 3`. -/
def navigateWithRetry (go : Nat → Except String Unit) : NavOutcome :=
  navLoop go 3 3 0 []

/-!  ## `scrapeDividendData` orchestration  -/

/-- The four extracted fields plus the scrape timestamp, exactly the
object built inside `page.evaluate`. -/
structure DividendData where
  exDate : String
  payDate : String
  dividend : String
  yieldValue : String
  scrapedAt : String
deriving Repr, DecidableEq

/-- The body of `page.evaluate`: the first matching row (already
reduced to the text content of its `td` cells, or `none` when no
selector matched) yields `null` when absent or shorter than four cells,
and the five-field object otherwise. -/
def extractDividendRow (row : Option (List String)) (nowIso : String) :
    Option DividendData :=
  match row with
  | none => none
  | some tds =>
    if tds.length < 4 then none
    else some { exDate := tds.getD 0 "", payDate := tds.getD 1 "",
                dividend := tds.getD 2 "", yieldValue := tds.getD 3 "",
                scrapedAt := nowIso }

/-- The outcome of one `scrapeDividendData(ticker)` call: the value it
returns (the extracted object or `null`) or the error it throws. -/
inductive ScrapeOutcome where
  | value (d : Option DividendData)
  | thrown (e : String)
deriving Repr, DecidableEq

/-- The fallible collaborators of one `scrapeDividendData` call:
pool acquisition, `browser.newPage()`, each `page.goto` attempt, the
`Promise.race` waiting for the table selector, and the DOM query done
by `page.evaluate`. -/
structure ScrapeEnv where
  acquire : Except String Unit
  newPage : Except String Unit
  goAttempt : Nat → Except String Unit
  waitForTable : Except String Unit
  evalRow : Except String (Option (List String))

/-- The `try` body of `scrapeDividendData`, paired with whether
`browser` is non-null when the `finally` block runs. -/
def scrapeTryBody (env : ScrapeEnv) (nowIso : String) : ScrapeOutcome × Bool :=
  match env.acquire with
  | .error e => (.thrown e, false)
  | .ok _ =>
    match env.newPage with
    | .error e => (.thrown e, true)
    | .ok _ =>
      match navigateWithRetry env.goAttempt with
      | .failure _ _ e => (.thrown e, true)
      | .success _ _ | .fellThrough _ _ =>
        match env.waitForTable with
        | .error e => (.thrown e, true)
        | .ok _ =>
          match env.evalRow with
          | .error e => (.thrown e, true)
          | .ok row => (.value (extractDividendRow row nowIso), true)

/-- Result of a `scrapeDividendData` call together with the number of
`browserPool.releaseBrowser` calls its `finally` block performed. -/
structure ScrapeResult where
  outcome : ScrapeOutcome
  releaseCount : Nat
deriving Repr, DecidableEq

/-- The whole of `scrapeDividendData`: run the `try` body, then the
`finally` block releases the browser exactly when it was acquired
(`if (browser)`). -/
def scrapeDividendData (env : ScrapeEnv) (nowIso : String) : ScrapeResult :=
  match scrapeTryBody env nowIso with
  | (out, acquired) => { outcome := out, releaseCount := if acquired then 1 else 0 }

/-!  ## TTL cache  -/

/-- Modelled from the spec: the Result Cache is provided by the
`node-cache` package, whose code is not part of this repository; the
spec describes it as a store of entries `(key, value, expiresAt)` with
`put(ticker, result, ttl)` setting `expiresAt = now + ttl`,
overwriting the prior entry for that key, and `get` returning absent
when no entry exists or the entry has expired (the spec test expects
absent once the elapsed time reaches the TTL). -/
structure TtlCache (α : Type) where
  entries : List (String × α × Nat)
deriving Repr, DecidableEq

/-- Modelled from the spec: `put(key, value, ttl)` at time `now`
inserts the entry with `expiresAt = now + ttl`, overwriting any prior
entry with the same key. -/
def cacheSet {α : Type} (c : TtlCache α) (key : String) (v : α)
    (now ttl : Nat) : TtlCache α :=
  ⟨(key, v, now + ttl) :: c.entries.filter (fun p => p.1 != key)⟩

/-- Modelled from the spec: `get(key)` at time `now` returns the stored
value while `now` is strictly before `expiresAt`, and absent otherwise. -/
def cacheGet {α : Type} (c : TtlCache α) (key : String) (now : Nat) : Option α :=
  match c.entries.find? (fun p => p.1 == key) with
  | some (_, v, exp) => if now < exp then some v else none
  | none => none

/-- The cache key built by both HTTP handlers:
`` `dividend:${ticker.toUpperCase()}` ``. -/
def dividendCacheKey (ticker : String) : String :=
  "dividend:" ++ ticker.toUpper

/-- The `CONFIG.cache.ttl` default: 60 seconds. -/
def defaultCacheTtl : Nat := 60

/-!  ## HTTP handlers  -/

/-- One character of the class `[A-Za-z0-9.-]`. -/
def validTickerChar (c : Char) : Bool :=
  c.isAlpha || c.isDigit || c == '.' || c == '-'

/-- The `validateTicker` middleware test `/^[A-Za-z0-9.-]{1,10}$/`
(a route parameter is always a non-null string, so the earlier
missing-ticker check cannot fire). -/
def validateTicker (s : String) : Bool :=
  decide (1 ≤ s.length) && decide (s.length ≤ 10) && s.toList.all validTickerChar

/-- JS `haystack.includes(needle)` on the underlying character lists. -/
def containsSub (needle : List Char) : List Char → Bool
  | [] => needle.isEmpty
  | c :: t => needle.isPrefixOf (c :: t) || containsSub needle t

/-- JS `error.message.includes(sub)`. -/
def strIncludes (hay needle : String) : Bool :=
  containsSub needle.toList hay.toList

/-- The `catch` branch of the single-ticker route: 408 when the message
contains `timeout`, 503 when it contains `Navigation failed`, 500
otherwise. -/
def classifyError (msg : String) : Nat :=
  if strIncludes msg "timeout" then 408
  else if strIncludes msg "Navigation failed" then 503
  else 500

/-- The JSON body of a 200 response of `GET /dividend/:ticker`:
`{ ticker, ...data, cached }` (the `cacheAge` field added on the cached
path is derived data and is not modelled). -/
structure DividendResponse where
  ticker : String
  exDate : String
  payDate : String
  dividend : String
  yieldValue : String
  scrapedAt : String
  cached : Bool
deriving Repr, DecidableEq

/-- The `GET /dividend/:ticker` route (validation middleware plus
handler), given the cache lookup result at request time and the outcome
of the `scrapeDividendData` call it would make: the response status and
the 200 body when there is one. -/
def handleDividendRequest (ticker : String) (cached : Option DividendResponse)
    (scrapeOut : ScrapeOutcome) : Nat × Option DividendResponse :=
  if !validateTicker ticker then (400, none)
  else
    match cached with
    | some d => (200, some { d with cached := true })
    | none =>
      match scrapeOut with
      | .thrown e => (classifyError e, none)
      | .value none => (404, none)
      | .value (some d) =>
        -- `if (data && data.exDate)` — a string is truthy when non-empty
        if d.exDate != "" then
          -- the quality check compares exDate against the empty string and N/A
          if d.exDate == "" || d.exDate == "N/A" then
            (classifyError "No valid dividend data found", none)
          else
            (200, some { ticker := ticker.toUpper, exDate := d.exDate,
                         payDate := d.payDate, dividend := d.dividend,
                         yieldValue := d.yieldValue, scrapedAt := d.scrapedAt,
                         cached := false })
        else (404, none)

/-- One value of the `results` map of `POST /dividends/batch`: a data
object or a `{ error }` object. -/
inductive BatchEntry where
  | data (ticker exDate payDate dividend yieldValue scrapedAt : String)
  | errorMsg (e : String)
deriving Repr, DecidableEq

/-- The per-ticker body of the batch route: upper-case the ticker,
consult the cache, scrape on a miss, and store either the data object
or a `{ error }` object under the upper-cased key; the surrounding
`try`/`catch` turns a thrown error into a `{ error: message }` entry. -/
def processBatchTicker (cacheLookup : String → Option DividendData)
    (scrapeOf : String → ScrapeOutcome) (ticker : String) : BatchEntry :=
  let upper := ticker.toUpper
  match cacheLookup upper with
  | some d => .data upper d.exDate d.payDate d.dividend d.yieldValue d.scrapedAt
  | none =>
    match scrapeOf upper with
    | .thrown e => .errorMsg e
    | .value none => .errorMsg "No data found"
    | .value (some d) =>
      .data upper d.exDate d.payDate d.dividend d.yieldValue d.scrapedAt

/-- The `POST /dividends/batch` route: 400 when the body has no tickers
array, an empty one, or more than 10 entries; otherwise 200 with one
`results` entry per ticker, keyed by the upper-cased ticker, each
computed independently by `processBatchTicker`.  No per-ticker format
validation is applied. -/
def batchHandler (cacheLookup : String → Option DividendData)
    (scrapeOf : String → ScrapeOutcome) (body : Option (List String)) :
    Nat × List (String × BatchEntry) :=
  match body with
  | none => (400, [])
  | some tickers =>
    if tickers.length = 0 then (400, [])
    else if tickers.length > 10 then (400, [])
    else (200, tickers.map (fun t =>
      (t.toUpper, processBatchTicker cacheLookup scrapeOf t)))

/-!  ## Concrete inputs used by witnesses and counterexamples  -/

/-- The state reached by a single `getBrowser` call on an empty pool of
capacity 1, while the launch await is in flight. -/
def c1WitnessState : PoolState :=
  { maxSize := 1, browsers := [], queue := [], activeBrowsers := 1, loans := [],
    launching := [0], nextBrowser := 0, closed := [], settled := [] }

/-- A pool state with one idle instance (id 5) and one free slot. -/
def c2State : PoolState :=
  { maxSize := 2, browsers := [5], queue := [], activeBrowsers := 1, loans := [],
    launching := [], nextBrowser := 6, closed := [], settled := [] }

/-- A pool state where caller 3 has a browser launch in flight. -/
def c2LaunchState : PoolState :=
  { maxSize := 2, browsers := [], queue := [], activeBrowsers := 1, loans := [],
    launching := [3], nextBrowser := 6, closed := [], settled := [] }

/-- A pool state where caller 2 holds instance 9 and caller 4 waits. -/
def c3State : PoolState :=
  { maxSize := 1, browsers := [], queue := [4], activeBrowsers := 1,
    loans := [(2, 9)], launching := [], nextBrowser := 10, closed := [],
    settled := [(2, .gotBrowser 9)] }

/-- The state reached by acquiring on a pool of capacity 0: the caller
is parked in the waiter queue. -/
def c9WitnessState : PoolState :=
  { maxSize := 0, browsers := [], queue := [0], activeBrowsers := 0, loans := [],
    launching := [], nextBrowser := 0, closed := [], settled := [] }

/-- The state reached by `acquire 0`, `launchOk 0`, `cleanup` on a pool
of capacity 1: instance 0 is on loan to caller 0 and the process is
shutting down. -/
def c8CounterexampleState : PoolState :=
  { maxSize := 1, browsers := [], queue := [], activeBrowsers := 0,
    loans := [(0, 0)], launching := [], nextBrowser := 1, closed := [],
    settled := [(0, .gotBrowser 0)] }

/-- A navigation collaborator that fails on the first two attempts and
succeeds on the third. -/
def failTwiceGo : Nat → Except String Unit :=
  fun n => if n < 2 then .error "nav failed" else .ok ()

/-- A scrape environment whose pool acquisition succeeds and whose
navigation always times out. -/
def scrapeEnvAllNavFail : ScrapeEnv :=
  { acquire := .ok (), newPage := .ok (),
    goAttempt := fun _ => .error "Navigation timeout", waitForTable := .ok (),
    evalRow := .ok none }

/-- A scrape environment whose pool acquisition fails. -/
def scrapeEnvAcquireFail : ScrapeEnv :=
  { acquire := .error "launch failed", newPage := .ok (),
    goAttempt := fun _ => .ok (), waitForTable := .ok (), evalRow := .ok none }

/-- A row whose first cell is populated and whose remaining cells are
empty: the extraction accepts it and the route serves it with status
200. -/
def c7Row : DividendData :=
  { exDate := "2024-01-15", payDate := "", dividend := "", yieldValue := "",
    scrapedAt := "2025-01-01T00:00:00Z" }

/-- A cached response object with an empty `exDate`, as the batch
route can store one: it caches `{ticker, ...data}` whenever the scrape
returned a non-null object, with no field validation. -/
def c7CachedEntry : DividendResponse :=
  { ticker := "KO", exDate := "", payDate := "", dividend := "",
    yieldValue := "", scrapedAt := "2025-01-01T00:00:00Z", cached := false }

/-- Batch-witness cache: always a miss. -/
def c10CacheLookup : String → Option DividendData := fun _ => none

/-- Batch-witness scraper: the scrape for the first ticker throws, the
others find nothing. -/
def c10ScrapeOf : String → ScrapeOutcome :=
  fun t => if t = "AAPL" then .thrown "boom" else .value none

/-!  ## Helper lemmas about the pool  -/

theorem popLast?_eq_some : ∀ {l l' : List Nat} {b : Nat},
    popLast? l = some (l', b) → l = l' ++ [b] := by
  intro l
  induction l with
  | nil => intro l' b h; simp [popLast?] at h
  | cons x t ih =>
    intro l' b h
    match t with
    | [] => simp [popLast?] at h; simp [h.1, h.2]
    | y :: t' =>
      rw [popLast?] at h
      rcases hp : popLast? (y :: t') with _ | ⟨l₀, b₀⟩ <;> rw [hp] at h
      · simp at h
      · simp at h
        obtain ⟨rfl, rfl⟩ : x :: l₀ = l' ∧ b₀ = b := ⟨h.1, h.2⟩
        have := ih hp
        simp [this]

theorem popLast?_concat (l : List Nat) (b : Nat) :
    popLast? (l ++ [b]) = some (l, b) := by
  induction l with
  | nil => rfl
  | cons x t ih =>
    match t with
    | [] => rfl
    | y :: t' =>
      rw [List.cons_append, List.cons_append, popLast?]
      rw [List.cons_append] at ih
      rw [ih]

theorem callerKnown_spec {s : PoolState} {c : Nat} (h : callerKnown s c = false) :
    c ∉ s.launching ∧ c ∉ s.queue ∧ c ∉ s.settled.map Prod.fst := by
  simp only [callerKnown, Bool.or_eq_false_iff] at h
  obtain ⟨⟨h₁, h₂⟩, h₃⟩ := h
  exact ⟨by simpa using h₁, by simpa using h₂, by simpa using h₃⟩

/-- A fresh caller is in none of the pending-caller roles. -/
theorem callerKnown_not_pending {s : PoolState} {c : Nat}
    (h : callerKnown s c = false)
    (h5 : ∀ x ∈ s.loans.map Prod.fst, x ∈ s.settled.map Prod.fst) :
    c ∉ pendingCallers s := by
  obtain ⟨h₁, h₂, h₃⟩ := callerKnown_spec h
  intro hc
  rcases List.mem_append.mp hc with hc | hc
  · rcases List.mem_append.mp hc with hc | hc
    · exact h₁ hc
    · exact h₂ hc
  · exact h₃ (h5 c hc)

/-- Extracting the unique loan of caller `c`: with duplicate-free
caller keys, the loan list is a permutation of the looked-up pair in
front of the list with that caller filtered out. -/
theorem loans_extract : ∀ (l : List (Nat × Nat)) (c b : Nat),
    (l.map Prod.fst).Nodup → l.lookup c = some b →
    l.Perm ((c, b) :: l.filter (fun p => p.1 != c)) := by
  intro l
  induction l with
  | nil => intro c b _ h; simp [List.lookup] at h
  | cons a t ih =>
    intro c b hnd hl
    obtain ⟨k, v⟩ := a
    rw [List.map_cons, List.nodup_cons] at hnd
    obtain ⟨hk, hndt⟩ := hnd
    by_cases hkc : k = c
    · subst hkc
      have hv : v = b := by
        have hself : List.lookup k ((k, v) :: t) = some v := by simp
        rw [hself] at hl
        injection hl
      subst hv
      have ht : t.filter (fun p => p.1 != k) = t :=
        List.filter_eq_self.mpr (by
          intro p hp
          simp only [bne_iff_ne, ne_eq, decide_eq_true_eq]
          intro hpk
          have hmem : k ∈ List.map Prod.fst t := by
            rw [← hpk]
            exact List.mem_map_of_mem Prod.fst hp
          exact hk hmem)
      have hcons : List.filter (fun p => p.1 != k) ((k, v) :: t)
          = t.filter (fun p => p.1 != k) := by
        rw [List.filter_cons]
        simp
      rw [hcons, ht]
    · have hb : (c == k) = false := by
        simp only [beq_eq_false_iff_ne, ne_eq]
        exact fun hh => hkc hh.symm
      have hl' : t.lookup c = some b := by
        rw [List.lookup] at hl
        rwa [hb] at hl
      have hperm := ih c b hndt hl'
      have hfk : ((k, v).1 != c) = true := by simpa using hkc
      have hcons : List.filter (fun p => p.1 != c) ((k, v) :: t)
          = (k, v) :: t.filter (fun p => p.1 != c) := by
        rw [List.filter_cons, if_pos hfk]
      rw [hcons]
      exact (hperm.cons (k, v)).trans (List.Perm.swap (c, b) (k, v) _)

theorem wf_acquire {s s' : PoolState} {c : Nat} (hwf : PoolWF s)
    (h : applyEvent s (.acquire c) = some s') : PoolWF s' := by
  obtain ⟨h1, h2, h3, h4, h5⟩ := hwf
  simp only [applyEvent] at h
  by_cases hck : callerKnown s c = true
  · rw [if_pos hck] at h
    exact absurd h (by simp)
  · rw [if_neg hck] at h
    have hckf : callerKnown s c = false := by simpa using hck
    have hcp : c ∉ pendingCallers s := callerKnown_not_pending hckf h5
    rcases hpl : popLast? s.browsers with _ | ⟨l, b⟩ <;> rw [hpl] at h
    · by_cases hlt : s.activeBrowsers < (s.maxSize : Int)
      · rw [if_pos hlt] at h
        injection h with h
        subst h
        refine ⟨by dsimp; omega, h2, h3, ?_, h5⟩
        exact List.nodup_cons.mpr ⟨hcp, h4⟩
      · rw [if_neg hlt] at h
        injection h with h
        subst h
        refine ⟨h1, h2, h3, ?_, h5⟩
        have hp1 : (s.launching ++ (s.queue ++ [c])).Perm (c :: (s.launching ++ s.queue)) :=
          (List.Perm.append_left s.launching (List.perm_append_singleton c s.queue)).trans
            List.perm_middle
        have hp2 : ((s.launching ++ (s.queue ++ [c])) ++ s.loans.map Prod.fst).Perm
            ((c :: (s.launching ++ s.queue)) ++ s.loans.map Prod.fst) :=
          hp1.append_right _
        exact hp2.symm.nodup (List.nodup_cons.mpr ⟨hcp, h4⟩)
    · have hbr : s.browsers = l ++ [b] := popLast?_eq_some hpl
      simp only [Option.some.injEq] at h
      subst h
      refine ⟨h1, ?_, ?_, ?_, ?_⟩
      · simp only [liveBrowsers, List.map_cons]
        have h2' := h2
        simp only [liveBrowsers, hbr, List.append_assoc, List.singleton_append] at h2'
        exact h2'
      · intro x hx
        apply h3 x
        simp only [liveBrowsers, hbr, List.map_cons, List.mem_append, List.mem_cons,
          List.append_assoc, List.singleton_append] at hx ⊢
        tauto
      · simp only [pendingCallers, List.map_cons]
        have hperm : (((s.launching ++ s.queue) ++ (c :: s.loans.map Prod.fst))).Perm
            (c :: ((s.launching ++ s.queue) ++ s.loans.map Prod.fst)) :=
          List.perm_middle
        exact hperm.symm.nodup (List.nodup_cons.mpr ⟨hcp, h4⟩)
      · intro x hx
        simp only [List.map_cons, List.mem_cons] at hx ⊢
        rcases hx with rfl | hx
        · exact Or.inl rfl
        · exact Or.inr (h5 x hx)

theorem wf_launchOk {s s' : PoolState} {c : Nat} (hwf : PoolWF s)
    (h : applyEvent s (.launchOk c) = some s') : PoolWF s' := by
  obtain ⟨h1, h2, h3, h4, h5⟩ := hwf
  simp only [applyEvent] at h
  by_cases hc : s.launching.contains c = true
  · rw [if_pos hc] at h
    injection h with h
    subst h
    have hcmem : c ∈ s.launching := by simpa using hc
    refine ⟨h1, ?_, ?_, ?_, ?_⟩
    · simp only [liveBrowsers, List.map_cons]
      rw [List.nodup_middle]
      refine List.nodup_cons.mpr ⟨?_, h2⟩
      intro hmem
      exact absurd (h3 _ hmem) (lt_irrefl _)
    · intro x hx
      simp only [liveBrowsers, List.map_cons, List.mem_append, List.mem_cons] at hx
      dsimp only
      rcases hx with hx | hx | hx
      · exact Nat.lt_succ_of_lt (h3 x (List.mem_append.mpr (Or.inl hx)))
      · rw [hx]
        exact Nat.lt_succ_self _
      · exact Nat.lt_succ_of_lt (h3 x (List.mem_append.mpr (Or.inr hx)))
    · simp only [pendingCallers, List.map_cons]
      have hpl : s.launching.Perm (c :: s.launching.erase c) := List.perm_cons_erase hcmem
      have hp1 : ((s.launching ++ s.queue) ++ s.loans.map Prod.fst).Perm
          (c :: ((s.launching.erase c ++ s.queue) ++ s.loans.map Prod.fst)) :=
        (hpl.append_right s.queue).append_right _
      have hn := hp1.nodup h4
      exact List.perm_middle.symm.nodup hn
    · intro x hx
      simp only [List.map_cons, List.mem_cons] at hx ⊢
      rcases hx with rfl | hx
      · exact Or.inl rfl
      · exact Or.inr (h5 x hx)
  · rw [if_neg hc] at h
    exact absurd h (by simp)

theorem wf_launchFail {s s' : PoolState} {c : Nat} (hwf : PoolWF s)
    (h : applyEvent s (.launchFail c) = some s') : PoolWF s' := by
  obtain ⟨h1, h2, h3, h4, h5⟩ := hwf
  simp only [applyEvent] at h
  by_cases hc : s.launching.contains c = true
  · rw [if_pos hc] at h
    injection h with h
    subst h
    refine ⟨by dsimp; omega, h2, h3, ?_, ?_⟩
    · exact (((List.erase_sublist c s.launching).append_right s.queue).append_right _).nodup h4
    · intro x hx
      simp only [List.map_cons, List.mem_cons]
      exact Or.inr (h5 x hx)
  · rw [if_neg hc] at h
    exact absurd h (by simp)

theorem wf_release {s s' : PoolState} {c : Nat} (hwf : PoolWF s)
    (h : applyEvent s (.release c) = some s') : PoolWF s' := by
  obtain ⟨h1, h2, h3, h4, h5⟩ := hwf
  simp only [applyEvent] at h
  rcases hlk : s.loans.lookup c with _ | b <;> rw [hlk] at h
  · exact absurd h (by simp)
  · have hlnf : (s.loans.map Prod.fst).Nodup :=
      (List.sublist_append_right (s.launching ++ s.queue) _).nodup h4
    have hperm := loans_extract s.loans c b hlnf hlk
    have hpf : (s.loans.map Prod.fst).Perm
        (c :: (s.loans.filter (fun p => p.1 != c)).map Prod.fst) := by
      simpa using hperm.map Prod.fst
    have hps : (s.loans.map Prod.snd).Perm
        (b :: (s.loans.filter (fun p => p.1 != c)).map Prod.snd) := by
      simpa using hperm.map Prod.snd
    have hsubf : (s.loans.filter (fun p => p.1 != c)).Sublist s.loans :=
      List.filter_sublist _
    rcases hq : s.queue with _ | ⟨w, ws⟩ <;> rw [hq] at h
    · by_cases hlen : s.browsers.length < s.maxSize
      · simp only [if_pos hlen, Option.some.injEq] at h
        subst h
        simp only [pendingCallers, hq] at h4
        refine ⟨h1, ?_, ?_, ?_, ?_⟩
        · simp only [liveBrowsers, List.append_assoc, List.singleton_append]
          exact (List.Perm.append_left s.browsers hps).nodup h2
        · intro x hx
          simp only [liveBrowsers, List.append_assoc, List.singleton_append] at hx
          exact h3 x ((List.Perm.append_left s.browsers hps).symm.subset hx)
        · exact (((hsubf.map Prod.fst).append_left (s.launching ++ []))).nodup h4
        · intro x hx
          exact h5 x ((hsubf.map Prod.fst).subset hx)
      · simp only [if_neg hlen, Option.some.injEq] at h
        subst h
        simp only [pendingCallers, hq] at h4
        refine ⟨by dsimp; omega, ?_, ?_, ?_, ?_⟩
        · exact ((hsubf.map Prod.snd).append_left s.browsers).nodup h2
        · intro x hx
          exact h3 x (((hsubf.map Prod.snd).append_left s.browsers).subset hx)
        · exact ((hsubf.map Prod.fst).append_left (s.launching ++ [])).nodup h4
        · intro x hx
          exact h5 x ((hsubf.map Prod.fst).subset hx)
    · simp only [Option.some.injEq] at h
      subst h
      simp only [pendingCallers, hq] at h4
      refine ⟨h1, ?_, ?_, ?_, ?_⟩
      · simp only [liveBrowsers, List.map_cons]
        exact (List.Perm.append_left s.browsers hps).nodup h2
      · intro x hx
        simp only [liveBrowsers, List.map_cons] at hx
        exact h3 x ((List.Perm.append_left s.browsers hps).symm.subset hx)
      · simp only [pendingCallers, List.map_cons]
        have pA : ((s.launching ++ (w :: ws)) ++ s.loans.map Prod.fst).Perm
            ((s.launching ++ (w :: ws)) ++
              (c :: (s.loans.filter (fun p => p.1 != c)).map Prod.fst)) :=
          List.Perm.append_left _ hpf
        have pB : ((s.launching ++ (w :: ws)) ++
            (c :: (s.loans.filter (fun p => p.1 != c)).map Prod.fst)).Perm
            (c :: ((s.launching ++ (w :: ws)) ++
              (s.loans.filter (fun p => p.1 != c)).map Prod.fst)) :=
          List.perm_middle
        have pC : (s.launching ++ (w :: ws)).Perm (w :: (s.launching ++ ws)) :=
          List.perm_middle
        have pD : ((s.launching ++ (w :: ws)) ++
            (s.loans.filter (fun p => p.1 != c)).map Prod.fst).Perm
            ((w :: (s.launching ++ ws)) ++
              (s.loans.filter (fun p => p.1 != c)).map Prod.fst) :=
          pC.append_right _
        have hbig := (pA.trans pB).trans (pD.cons c)
        have hn := hbig.nodup h4
        have hn2 := (List.nodup_cons.mp hn).2
        exact List.perm_middle.symm.nodup hn2
      · intro x hx
        simp only [List.map_cons, List.mem_cons] at hx ⊢
        rcases hx with rfl | hx
        · exact Or.inl rfl
        · exact Or.inr (h5 x ((hsubf.map Prod.fst).subset hx))

theorem wf_releaseFail {s s' : PoolState} {c : Nat} (hwf : PoolWF s)
    (h : applyEvent s (.releaseFail c) = some s') : PoolWF s' := by
  obtain ⟨h1, h2, h3, h4, h5⟩ := hwf
  simp only [applyEvent] at h
  rcases hlk : s.loans.lookup c with _ | b <;> rw [hlk] at h
  · exact absurd h (by simp)
  · simp only [Option.some.injEq] at h
    subst h
    have hsubf : (s.loans.filter (fun p => p.1 != c)).Sublist s.loans :=
      List.filter_sublist _
    refine ⟨by dsimp; omega, ?_, ?_, ?_, ?_⟩
    · exact ((hsubf.map Prod.snd).append_left s.browsers).nodup h2
    · intro x hx
      exact h3 x (((hsubf.map Prod.snd).append_left s.browsers).subset hx)
    · exact ((hsubf.map Prod.fst).append_left (s.launching ++ s.queue)).nodup h4
    · intro x hx
      exact h5 x ((hsubf.map Prod.fst).subset hx)

theorem wf_cleanup {s s' : PoolState} (hwf : PoolWF s)
    (h : applyEvent s .cleanup = some s') : PoolWF s' := by
  obtain ⟨h1, h2, h3, h4, h5⟩ := hwf
  simp only [applyEvent] at h
  injection h with h
  subst h
  refine ⟨?_, ?_, ?_, h4, h5⟩
  · exact Int.natCast_nonneg _
  · exact (List.sublist_append_right s.browsers _).nodup h2
  · intro x hx
    exact h3 x ((List.sublist_append_right s.browsers _).subset hx)

/-- Every pool event preserves well-formedness. -/
theorem applyEvent_wf {s s' : PoolState} {e : PoolEvent} (hwf : PoolWF s)
    (h : applyEvent s e = some s') : PoolWF s' := by
  cases e with
  | acquire c => exact wf_acquire hwf h
  | launchOk c => exact wf_launchOk hwf h
  | launchFail c => exact wf_launchFail hwf h
  | release c => exact wf_release hwf h
  | releaseFail c => exact wf_releaseFail hwf h
  | cleanup => exact wf_cleanup hwf h

/-- No pool event changes the capacity bound. -/
theorem applyEvent_maxSize {s s' : PoolState} {e : PoolEvent}
    (h : applyEvent s e = some s') : s'.maxSize = s.maxSize := by
  cases e <;> simp only [applyEvent] at h <;>
    (repeat' split at h) <;>
    first
      | (simp only [Option.some.injEq] at h; subst h; rfl)
      | exact absurd h (by simp)

/-- The initial pool state is well-formed. -/
theorem initPool_wf (maxSize : Nat) : PoolWF (initPool maxSize) := by
  refine ⟨?_, ?_, ?_, ?_, ?_⟩ <;>
    simp [initPool, liveBrowsers, pendingCallers]

theorem runPool_step_none (tr : List PoolEvent) :
    tr.foldl (fun os e => os.bind (fun s => applyEvent s e)) none = none := by
  induction tr with
  | nil => rfl
  | cons e tr ih => simpa using ih

theorem runPool_fold_wf : ∀ (tr : List PoolEvent) (s s' : PoolState), PoolWF s →
    tr.foldl (fun os e => os.bind (fun t => applyEvent t e)) (some s) = some s' →
    PoolWF s' := by
  intro tr
  induction tr with
  | nil =>
    intro s s' hwf hr
    simp only [List.foldl] at hr
    injection hr with hr
    subst hr
    exact hwf
  | cons e tr ih =>
    intro s s' hwf hr
    simp only [List.foldl, Option.some_bind] at hr
    rcases hae : applyEvent s e with _ | s₁
    · rw [hae] at hr
      rw [runPool_step_none] at hr
      exact absurd hr (by simp)
    · rw [hae] at hr
      exact ih s₁ s' (applyEvent_wf hwf hae) hr

theorem runPool_fold_maxSize : ∀ (tr : List PoolEvent) (s s' : PoolState),
    tr.foldl (fun os e => os.bind (fun t => applyEvent t e)) (some s) = some s' →
    s'.maxSize = s.maxSize := by
  intro tr
  induction tr with
  | nil =>
    intro s s' hr
    simp only [List.foldl] at hr
    injection hr with hr
    subst hr
    rfl
  | cons e tr ih =>
    intro s s' hr
    simp only [List.foldl, Option.some_bind] at hr
    rcases hae : applyEvent s e with _ | s₁
    · rw [hae] at hr
      rw [runPool_step_none] at hr
      exact absurd hr (by simp)
    · rw [hae] at hr
      exact (ih s₁ s' hr).trans (applyEvent_maxSize hae)

/-- Every state reachable from `new BrowserPool(maxSize)` is
well-formed and keeps the constructed capacity. -/
theorem runPool_wf {maxSize : Nat} {tr : List PoolEvent} {s : PoolState}
    (h : runPool maxSize tr = some s) : PoolWF s ∧ s.maxSize = maxSize := by
  rw [runPool] at h
  exact ⟨runPool_fold_wf tr (initPool maxSize) s (initPool_wf maxSize) h,
    runPool_fold_maxSize tr (initPool maxSize) s h⟩

/-!  ## Claim theorems  -/

/-- C1: for every interleaving of `getBrowser` and `releaseBrowser`
segments on a `BrowserPool` constructed with `maxSize`, the counter
`activeBrowsers` never exceeds `maxSize`, and no instance is held by
two callers at once: the idle list together with the on-loan instances
is duplicate-free, so an instance handed out by `getBrowser` or by a
waiter hand-off is neither in the idle list nor on loan to a second
caller until it is released. -/
theorem pool_bounded_and_exclusive (maxSize : Nat) (tr : List PoolEvent)
    (s : PoolState) (h : runPool maxSize tr = some s) :
    s.activeBrowsers ≤ (maxSize : Int) ∧
    (s.browsers ++ s.loans.map Prod.snd).Nodup := by
  obtain ⟨hwf, hms⟩ := runPool_wf h
  refine ⟨?_, hwf.live_nodup⟩
  have hal := hwf.active_le
  rw [hms] at hal
  exact hal

theorem pool_bounded_and_exclusive_witness :
    runPool 1 [.acquire 0] = some c1WitnessState ∧
    c1WitnessState.activeBrowsers ≤ (1 : Int) ∧
    (c1WitnessState.browsers ++ c1WitnessState.loans.map Prod.snd).Nodup :=
  ⟨by decide,
   (pool_bounded_and_exclusive 1 [.acquire 0] c1WitnessState (by decide)).1,
   (pool_bounded_and_exclusive 1 [.acquire 0] c1WitnessState (by decide)).2⟩

/-- C2: `getBrowser` for a fresh caller: with a non-empty idle list the
most recently pushed (last) instance is popped and handed over at once;
with an empty idle list and spare capacity, `activeBrowsers` is
incremented, a launch begins for this caller, and when the launch
completes the newly created (fresh) instance is handed to exactly that
caller; with an empty idle list at capacity the caller is appended to
the waiter queue with no settlement yet; and a launch failure
decrements `activeBrowsers` again and rejects that caller, with no
retry and no re-queueing. -/
theorem getBrowser_spec (s : PoolState) (c : Nat)
    (hc : callerKnown s c = false) :
    (∀ l b, s.browsers = l ++ [b] →
      applyEvent s (.acquire c) =
        some { s with browsers := l, loans := (c, b) :: s.loans,
                      settled := (c, .gotBrowser b) :: s.settled }) ∧
    (s.browsers = [] → s.activeBrowsers < (s.maxSize : Int) →
      applyEvent s (.acquire c) =
        some { s with activeBrowsers := s.activeBrowsers + 1,
                      launching := c :: s.launching }) ∧
    (s.browsers = [] → ¬ s.activeBrowsers < (s.maxSize : Int) →
      applyEvent s (.acquire c) = some { s with queue := s.queue ++ [c] }) ∧
    (∀ c₂, c₂ ∈ s.launching →
      applyEvent s (.launchOk c₂) =
        some { s with launching := s.launching.erase c₂,
                      loans := (c₂, s.nextBrowser) :: s.loans,
                      nextBrowser := s.nextBrowser + 1,
                      settled := (c₂, .gotBrowser s.nextBrowser) :: s.settled }) ∧
    (∀ c₂, c₂ ∈ s.launching →
      applyEvent s (.launchFail c₂) =
        some { s with launching := s.launching.erase c₂,
                      activeBrowsers := s.activeBrowsers - 1,
                      settled := (c₂, .gotError) :: s.settled }) := by
  refine ⟨?_, ?_, ?_, ?_, ?_⟩
  · intro l b hbr
    simp [applyEvent, hc, hbr, popLast?_concat]
  · intro hbr hlt
    simp [applyEvent, hc, hbr, popLast?, hlt]
  · intro hbr hge
    simp [applyEvent, hc, hbr, popLast?, hge]
  · intro c₂ hc₂
    have hcont : s.launching.contains c₂ = true := by simpa using hc₂
    simp [applyEvent, hcont]
    exact hc₂
  · intro c₂ hc₂
    have hcont : s.launching.contains c₂ = true := by simpa using hc₂
    simp [applyEvent, hcont]
    exact hc₂

theorem getBrowser_spec_witness :
    callerKnown c2State 7 = false ∧
    applyEvent c2State (.acquire 7) =
      some { c2State with browsers := [], loans := (7, 5) :: c2State.loans,
                          settled := (7, .gotBrowser 5) :: c2State.settled } ∧
    applyEvent c2LaunchState (.launchOk 3) =
      some { c2LaunchState with
               launching := c2LaunchState.launching.erase 3,
               loans := (3, c2LaunchState.nextBrowser) :: c2LaunchState.loans,
               nextBrowser := c2LaunchState.nextBrowser + 1,
               settled := (3, .gotBrowser c2LaunchState.nextBrowser) ::
                 c2LaunchState.settled } :=
  ⟨by decide,
   (getBrowser_spec c2State 7 (by decide)).1 [] 5 (by decide),
   (getBrowser_spec c2LaunchState 7 (by decide)).2.2.2.1 3 (by decide)⟩

/-- C3: `releaseBrowser` for an instance held by caller `c`: after the
page cleanup (which closes every page except the first), a non-empty
waiter queue hands the instance directly to the oldest waiter — the
idle list is untouched; with no waiter and room in the idle list the
instance is pushed onto the idle list; otherwise the instance is closed
and `activeBrowsers` decremented.  A cleanup failure closes the
instance and decrements `activeBrowsers`, and no failure is settled on
anyone — the settlement log is unchanged. -/
theorem releaseBrowser_spec (s : PoolState) (c b : Nat)
    (hb : s.loans.lookup c = some b) :
    (∀ w ws, s.queue = w :: ws →
      applyEvent s (.release c) =
        some { s with loans := (w, b) :: s.loans.filter (fun p => p.1 != c),
                      queue := ws,
                      settled := (w, .gotBrowser b) :: s.settled }) ∧
    (s.queue = [] → s.browsers.length < s.maxSize →
      applyEvent s (.release c) =
        some { s with loans := s.loans.filter (fun p => p.1 != c),
                      browsers := s.browsers ++ [b] }) ∧
    (s.queue = [] → ¬ s.browsers.length < s.maxSize →
      applyEvent s (.release c) =
        some { s with loans := s.loans.filter (fun p => p.1 != c),
                      closed := b :: s.closed,
                      activeBrowsers := s.activeBrowsers - 1 }) ∧
    (applyEvent s (.releaseFail c) =
      some { s with loans := s.loans.filter (fun p => p.1 != c),
                    closed := b :: s.closed,
                    activeBrowsers := s.activeBrowsers - 1 }) ∧
    (∀ p ps, pagesClosedOnRelease (p :: ps) = ps ∧
      pagesKeptOnRelease (p :: ps) = [p]) := by
  refine ⟨?_, ?_, ?_, ?_, ?_⟩
  · intro w ws hq
    simp [applyEvent, hb, hq]
  · intro hq hlen
    simp [applyEvent, hb, hq, hlen]
  · intro hq hlen
    simp [applyEvent, hb, hq, hlen]
  · simp [applyEvent, hb]
  · intro p ps
    exact ⟨rfl, rfl⟩

theorem releaseBrowser_spec_witness :
    c3State.loans.lookup 2 = some 9 ∧
    applyEvent c3State (.release 2) =
      some { c3State with loans := [(4, 9)], queue := [],
                          settled := (4, .gotBrowser 9) :: c3State.settled } :=
  ⟨by decide, (releaseBrowser_spec c3State 2 9 (by decide)).1 4 [] (by decide)⟩

/-- C8 (amended): on a termination signal the handler runs
`browserPool.cleanup()` and then the process exits: every idle instance
is closed, the idle list is emptied and `activeBrowsers` reset to zero;
instances currently on loan are left on loan and are not closed. -/
theorem cleanup_closes_idle_only (s : PoolState) :
    handleTerminationSignal s =
      some { s with closed := s.browsers ++ s.closed, browsers := [],
                    activeBrowsers := 0 } := by
  simp [handleTerminationSignal, applyEvent]

/-- C8 counterexample: reach a state where instance 0 is on loan, then
run the termination-signal cleanup: the loan is still outstanding and
nothing was closed, so cleanup does not close active (on-loan)
instances, contrary to the claim. -/
theorem cleanup_counterexample :
    runPool 1 [.acquire 0, .launchOk 0, .cleanup] = some c8CounterexampleState ∧
    c8CounterexampleState.loans = [(0, 0)] ∧
    c8CounterexampleState.closed = [] :=
  ⟨by decide, by decide, by decide⟩

/-- C9: the termination cleanup neither resolves nor rejects any
queued waiter: it leaves the waiter queue and the settlement log
unchanged, so a caller pending in the queue when the signal arrives is
still pending afterwards — and since the handler exits the process
right after cleanup, no later pool action settles it. -/
theorem cleanup_queue_frame (s : PoolState) (c : Nat)
    (hq : c ∈ s.queue) (hs : c ∉ s.settled.map Prod.fst) :
    ∃ s', handleTerminationSignal s = some s' ∧
      s'.queue = s.queue ∧ s'.settled = s.settled ∧
      c ∈ s'.queue ∧ c ∉ s'.settled.map Prod.fst :=
  ⟨_, rfl, rfl, rfl, hq, hs⟩

theorem cleanup_queue_frame_witness :
    0 ∈ c9WitnessState.queue ∧
    (∃ s', handleTerminationSignal c9WitnessState = some s' ∧
      s'.queue = c9WitnessState.queue ∧ s'.settled = c9WitnessState.settled ∧
      0 ∈ s'.queue ∧ 0 ∉ s'.settled.map Prod.fst) :=
  ⟨by decide, cleanup_queue_frame c9WitnessState 0 (by decide) (by decide)⟩

/-- C4: in every execution of `scrapeDividendData`, the `finally`
block releases the acquired browser back to the pool exactly once —
whether the call returns extracted data, returns null, or throws
during page creation, navigation, the content wait, or extraction —
and when acquisition itself failed, no release happens. -/
theorem scrape_release_discipline (env : ScrapeEnv) (nowIso : String) :
    (scrapeDividendData env nowIso).releaseCount =
      match env.acquire with
      | .ok _ => 1
      | .error _ => 0 := by
  rcases henv : env.acquire with e | u
  · simp [scrapeDividendData, scrapeTryBody, henv]
  · rcases hnp : env.newPage with e | u'
    · simp [scrapeDividendData, scrapeTryBody, henv, hnp]
    · rcases hnav : navigateWithRetry env.goAttempt with ⟨n, d⟩ | ⟨n, d, err⟩ | ⟨n, d⟩ <;>
        rcases hwt : env.waitForTable with e | u'' <;>
        rcases hev : env.evalRow with e' | row <;>
        simp [scrapeDividendData, scrapeTryBody, henv, hnp, hnav, hwt, hev]

/-- C5: the navigation loop of `scrapeDividendData` attempts
`page.goto` at most 3 times; after the k-th failed attempt (k < 3) the
next attempt is preceded by a `1000 * k` ms backoff delay; two failures
followed by a success give overall success after exactly 3 attempts
with delays 1000 and 2000 ms; and when all 3 attempts fail, the last
navigation error is re-thrown. -/
theorem navigation_retry_spec (go : Nat → Except String Unit) :
    (navigateWithRetry go).attempts ≤ 3 ∧
    (∀ u, go 0 = .ok u → navigateWithRetry go = .success 1 []) ∧
    (∀ e0 u, go 0 = .error e0 → go 1 = .ok u →
      navigateWithRetry go = .success 2 [1000 * 1]) ∧
    (∀ e0 e1 u, go 0 = .error e0 → go 1 = .error e1 → go 2 = .ok u →
      navigateWithRetry go = .success 3 [1000 * 1, 1000 * 2]) ∧
    (∀ e0 e1 e2, go 0 = .error e0 → go 1 = .error e1 → go 2 = .error e2 →
      navigateWithRetry go = .failure 3 [1000 * 1, 1000 * 2] e2) := by
  refine ⟨?_, ?_, ?_, ?_, ?_⟩
  · rcases h0 : go 0 with e0 | u0
    · rcases h1 : go 1 with e1 | u1
      · rcases h2 : go 2 with e2 | u2 <;>
          simp [navigateWithRetry, navLoop, h0, h1, h2, NavOutcome.attempts]
      · simp [navigateWithRetry, navLoop, h0, h1, NavOutcome.attempts]
    · simp [navigateWithRetry, navLoop, h0, NavOutcome.attempts]
  · intro u h0
    rcases u
    simp [navigateWithRetry, navLoop, h0]
  · intro e0 u h0 h1
    rcases u
    simp [navigateWithRetry, navLoop, h0, h1]
  · intro e0 e1 u h0 h1 h2
    rcases u
    simp [navigateWithRetry, navLoop, h0, h1, h2]
  · intro e0 e1 e2 h0 h1 h2
    simp [navigateWithRetry, navLoop, h0, h1, h2]

theorem navigation_retry_spec_witness :
    failTwiceGo 0 = .error "nav failed" ∧ failTwiceGo 1 = .error "nav failed" ∧
    failTwiceGo 2 = .ok () ∧
    navigateWithRetry failTwiceGo = .success 3 [1000 * 1, 1000 * 2] :=
  ⟨rfl, rfl, rfl,
   (navigation_retry_spec failTwiceGo).2.2.2.1 "nav failed" "nav failed" () rfl rfl rfl⟩

/-- C6: storing a result in the cache under the handler key (the
upper-cased ticker, one entry per ticker, a fresh store overwriting the
prior entry) and reading it back before the TTL elapses returns the
stored result; reading it once the TTL has passed returns absent, so
the next request misses the cache and fetches afresh. -/
theorem cache_ttl_roundtrip (α : Type) (c : TtlCache α) (ticker : String)
    (r : α) (now ttl t : Nat) :
    (t < now + ttl →
      cacheGet (cacheSet c (dividendCacheKey ticker) r now ttl)
        (dividendCacheKey ticker) t = some r) ∧
    (now + ttl ≤ t →
      cacheGet (cacheSet c (dividendCacheKey ticker) r now ttl)
        (dividendCacheKey ticker) t = none) := by
  have hfind : (cacheSet c (dividendCacheKey ticker) r now ttl).entries.find?
      (fun p => p.1 == dividendCacheKey ticker) =
      some (dividendCacheKey ticker, r, now + ttl) := by
    simp [cacheSet]
  constructor <;> intro h
  · simp [cacheGet, hfind, h]
  · simp [cacheGet, hfind, Nat.not_lt.mpr h]

theorem cache_ttl_roundtrip_witness :
    (5 : Nat) < 0 + defaultCacheTtl ∧
    cacheGet (cacheSet (⟨[]⟩ : TtlCache Nat) (dividendCacheKey "aapl") 42 0
        defaultCacheTtl) (dividendCacheKey "aapl") 5 = some 42 ∧
    cacheGet (cacheSet (⟨[]⟩ : TtlCache Nat) (dividendCacheKey "aapl") 42 0
        defaultCacheTtl) (dividendCacheKey "aapl") 60 = none :=
  ⟨by decide,
   (cache_ttl_roundtrip Nat ⟨[]⟩ "aapl" 42 0 defaultCacheTtl 5).1 (by decide),
   (cache_ttl_roundtrip Nat ⟨[]⟩ "aapl" 42 0 defaultCacheTtl 60).2 (by decide)⟩

/-- C7 counterexample: the ticker KO passes validation, yet the route
can reply 200 with missing fields two ways.  On a cache miss, a scrape
whose row has a populated first cell but empty remaining cells is
served as 200 with an empty `payDate`.  On a cache hit, a cached entry
with an empty `exDate` — as the batch route can store, since it caches
`{ticker, ...data}` with no field validation into the same key space —
is served as 200 with an empty `exDate`. -/
theorem dividend_route_counterexample :
    validateTicker "KO" = true ∧
    (handleDividendRequest "KO" none (.value (some c7Row))).1 = 200 ∧
    (handleDividendRequest "KO" none (.value (some c7Row))).2.map
      (fun r => r.payDate) = some "" ∧
    (handleDividendRequest "KO" (some c7CachedEntry) (.value none)).1 = 200 ∧
    (handleDividendRequest "KO" (some c7CachedEntry) (.value none)).2.map
      (fun r => r.exDate) = some "" :=
  ⟨by decide, by decide, by decide, by decide, by decide⟩

/-- C7 (amended): for a ticker passing the validation pattern, the
route replies with one of the statuses 200, 404, 408, 500, 503.  On a
cache miss, a 200 response has its `exDate` field populated (non-empty
and not `N/A`) — only that one field is validated, and `payDate`,
`dividend` and `yield` may be empty.  On a cache hit, the cached object
is served as a 200 with no validation at all, so every field, `exDate`
included, may be empty (the batch route stores unvalidated entries into
the same key space). -/
theorem dividend_route_status_spec (ticker : String)
    (cached : Option DividendResponse) (out : ScrapeOutcome)
    (hv : validateTicker ticker = true) :
    (handleDividendRequest ticker cached out).1 ∈
      ([200, 404, 408, 500, 503] : List Nat) ∧
    (cached = none → (handleDividendRequest ticker cached out).1 = 200 →
      ∃ r, (handleDividendRequest ticker cached out).2 = some r ∧
        r.exDate ≠ "" ∧ r.exDate ≠ "N/A") ∧
    (∀ d, cached = some d →
      handleDividendRequest ticker cached out =
        (200, some { d with cached := true })) := by
  rcases cached with _ | d
  · rcases out with dOpt | e
    · rcases dOpt with _ | dd
      · refine ⟨?_, ?_, fun d hd => nomatch hd⟩
        · simp [handleDividendRequest, hv]
        · intro _ h200
          simp [handleDividendRequest, hv] at h200
      · by_cases hx : (dd.exDate != "") = true
        · have hne : dd.exDate ≠ "" := by simpa using hx
          by_cases hy : (dd.exDate == "N/A") = true
          · have hcls : classifyError "No valid dividend data found" = 500 := by
              decide
            refine ⟨?_, ?_, fun d hd => nomatch hd⟩
            · simp [handleDividendRequest, hv, hx, hy, hcls]
            · intro _ h200
              simp [handleDividendRequest, hv, hx, hy, hcls] at h200
          · have hna : dd.exDate ≠ "N/A" := by simpa using hy
            refine ⟨?_, ?_, fun d hd => nomatch hd⟩
            · simp [handleDividendRequest, hv, hx, hne, hna]
            · intro _ _
              refine ⟨{ ticker := ticker.toUpper, exDate := dd.exDate,
                        payDate := dd.payDate, dividend := dd.dividend,
                        yieldValue := dd.yieldValue, scrapedAt := dd.scrapedAt,
                        cached := false }, ?_, hne, hna⟩
              simp [handleDividendRequest, hv, hx, hne, hna]
        · refine ⟨?_, ?_, fun d hd => nomatch hd⟩
          · simp [handleDividendRequest, hv, hx]
          · intro _ h200
            simp [handleDividendRequest, hv, hx] at h200
    · have hcls : classifyError e = 408 ∨ classifyError e = 503 ∨
          classifyError e = 500 := by
        unfold classifyError
        by_cases h1 : strIncludes e "timeout" = true
        · simp [h1]
        · by_cases h2 : strIncludes e "Navigation failed" = true
          · simp [h1, h2]
          · simp [h1, h2]
      have hst : (handleDividendRequest ticker none (.thrown e)).1 =
          classifyError e := by
        simp [handleDividendRequest, hv]
      refine ⟨?_, ?_, fun d hd => nomatch hd⟩
      · rw [hst]
        rcases hcls with h | h | h <;> simp [h]
      · intro _ h200
        rw [hst] at h200
        rcases hcls with h | h | h <;> omega
  · refine ⟨?_, ?_, ?_⟩
    · simp [handleDividendRequest, hv]
    · intro hd
      exact absurd hd (by simp)
    · intro d₂ hd₂
      injection hd₂ with hd₂
      subst hd₂
      simp [handleDividendRequest, hv]

theorem dividend_route_status_spec_witness :
    validateTicker "KO" = true ∧
    (handleDividendRequest "KO" none (.value none)).1 ∈
      ([200, 404, 408, 500, 503] : List Nat) ∧
    handleDividendRequest "KO" (some c7CachedEntry) (.value none) =
      (200, some { c7CachedEntry with cached := true }) :=
  ⟨by decide,
   (dividend_route_status_spec "KO" none (.value none) (by decide)).1,
   (dividend_route_status_spec "KO" (some c7CachedEntry) (.value none)
     (by decide)).2.2 c7CachedEntry rfl⟩

/-- C10: the batch route applies no per-ticker format validation: every
list of 1 to 10 ticker strings — malformed ones included — gets status
200 (never 400), with one `results` entry per ticker, keyed by the
upper-cased ticker and computed by `processBatchTicker` from that
ticker alone, so a failure for one ticker cannot affect the entry of
another ticker. -/
theorem batch_no_per_ticker_validation
    (cacheLookup : String → Option DividendData)
    (scrapeOf : String → ScrapeOutcome) (tickers : List String)
    (h1 : 1 ≤ tickers.length) (h2 : tickers.length ≤ 10) :
    (batchHandler cacheLookup scrapeOf (some tickers)).1 = 200 ∧
    (batchHandler cacheLookup scrapeOf (some tickers)).2 =
      tickers.map (fun t => (t.toUpper, processBatchTicker cacheLookup scrapeOf t)) ∧
    ∀ t ∈ tickers,
      (t.toUpper, processBatchTicker cacheLookup scrapeOf t) ∈
        (batchHandler cacheLookup scrapeOf (some tickers)).2 := by
  have hne : ¬ tickers.length = 0 := by omega
  have hgt : ¬ tickers.length > 10 := by omega
  have hred : batchHandler cacheLookup scrapeOf (some tickers) =
      (200, tickers.map (fun t =>
        (t.toUpper, processBatchTicker cacheLookup scrapeOf t))) := by
    simp only [batchHandler]
    rw [if_neg hne, if_neg hgt]
  refine ⟨by rw [hred], by rw [hred], ?_⟩
  intro t ht
  rw [hred]
  exact List.mem_map_of_mem _ ht

theorem batch_no_per_ticker_validation_witness :
    validateTicker "INVALID$" = false ∧
    (batchHandler c10CacheLookup c10ScrapeOf
      (some ["AAPL", "INVALID$", "MSFT"])).1 = 200 ∧
    ("INVALID$".toUpper, processBatchTicker c10CacheLookup c10ScrapeOf
        "INVALID$") ∈
      (batchHandler c10CacheLookup c10ScrapeOf
        (some ["AAPL", "INVALID$", "MSFT"])).2 :=
  ⟨by decide,
   (batch_no_per_ticker_validation c10CacheLookup c10ScrapeOf
     ["AAPL", "INVALID$", "MSFT"] (by decide) (by decide)).1,
   (batch_no_per_ticker_validation c10CacheLookup c10ScrapeOf
     ["AAPL", "INVALID$", "MSFT"] (by decide) (by decide)).2.2
     "INVALID$" (by decide)⟩

